import Mathlib

/-!
Shallow embedding of the templatamus template-synchronization engine
(`internal/sync/sync.go`, `internal/config`, `internal/git`, `internal/cli`,
`internal/model`) for verification of its specification.

Go strings are modelled as Lean `String`s (lengths measured over the
character list `String.data`; the identifiers involved — commit SHAs, tag
names, repo slugs — are ASCII, where Go's byte indexing and character
indexing coincide).  Go time values are modelled as `Nat` timestamps.
External effects (GitHub API calls, git subprocesses, interactive prompts,
file-system writes) are modelled by an explicit environment `SyncEnv`; the
persisted project directory (`.templatamus/metadata.json`,
`.templatamus/sync.json`, `conflict.patch`, and the git history of the
working tree) is the state `ProjectDir` threaded through the functions.
A Go `panic` (string-slice out of range) is a distinguished outcome.
-/

/-- `model.CommitInfo` (internal/model/model.go).  `Date` is a `Nat`
timestamp; `IsApplied` is the runtime-only flag. -/
structure CommitInfo where
  sha : String
  message : String
  author : String
  date : Nat
  url : String
  isApplied : Bool := false
  deriving Repr, DecidableEq

/-- `model.ProjectMetadata` (internal/model/model.go). -/
structure ProjectMetadata where
  sourceRepo : String
  sourceBranch : String
  sourceCommit : String
  createdAt : Nat
  lastSyncedAt : Nat
  appliedCommits : List String
  deriving Repr, DecidableEq

/-- `model.SyncStatus` (internal/model/model.go); the Go zero value has
all-false flags, empty strings, zero time and nil pointer. -/
structure SyncStatus where
  inProgress : Bool := false
  currentCommit : String := ""
  hasConflicts : Bool := false
  conflictsAt : Nat := 0
  conflictCommit : Option CommitInfo := none
  deriving Repr, DecidableEq

/-- State of one on-disk file: missing, unreadable/unparseable, or holding
a parsed value. -/
inductive FileData (α : Type) where
  | absent
  | corrupt
  | parsed (a : α)
  deriving Repr, DecidableEq

/-- The persisted state of one project directory: the two JSON records under
`.templatamus/`, the saved conflict patch, and the git commits made in the
working tree (by message, in order). -/
structure ProjectDir where
  metadata : FileData ProjectMetadata
  syncStatus : FileData SyncStatus
  patchFile : Option String
  gitLog : List String
  deriving Repr, DecidableEq

/-- Go `s[:n]` — byte/character slicing that panics (`none`) when the string
is shorter than `n`.  Models the `[:8]` slices throughout the source. -/
def goSlice (s : String) (n : Nat) : Option String :=
  if n ≤ s.data.length then some (String.mk (s.data.take n)) else none

/-- Go `strings.Split` with a single-character separator, over the character
list. -/
def splitChar (sep : Char) : List Char → List (List Char)
  | [] => [[]]
  | c :: rest =>
    let r := splitChar sep rest
    if c = sep then [] :: r
    else
      match r with
      | [] => [[c]]
      | g :: gs => (c :: g) :: gs

/-- Go `strings.Split(s, sep)` for a one-character separator. -/
def goSplit (s : String) (sep : Char) : List String :=
  (splitChar sep s.data).map (fun cs => String.mk cs)

/-- Go `strings.Split(s, "\n")[0]` — the first line of a message
(`strings.Split` always returns at least one element). -/
def firstLine (s : String) : String :=
  (goSplit s '\n').headD ""

/-- `config.LoadProjectMetadata` (internal/config/config.go): read and parse
`.templatamus/metadata.json`; a missing or unreadable file is an error. -/
def LoadProjectMetadata (dir : ProjectDir) : Except String ProjectMetadata :=
  match dir.metadata with
  | .absent => .error "failed to read metadata"
  | .corrupt => .error "failed to parse metadata"
  | .parsed m => .ok m

/-- `config.LoadSyncStatus` (internal/config/config.go): when
`.templatamus/sync.json` does not exist, return the empty status, not an
error; a present-but-unparseable file is an error. -/
def LoadSyncStatus (dir : ProjectDir) : Except String SyncStatus :=
  match dir.syncStatus with
  | .absent => .ok {}
  | .corrupt => .error "failed to parse sync status"
  | .parsed s => .ok s

/-- `config.SaveSyncStatus`: write `.templatamus/sync.json`. -/
def SaveSyncStatus (dir : ProjectDir) (s : SyncStatus) : ProjectDir :=
  { dir with syncStatus := .parsed s }

/-- `config.ClearSyncStatus`: remove `.templatamus/sync.json`. -/
def ClearSyncStatus (dir : ProjectDir) : ProjectDir :=
  { dir with syncStatus := .absent }

/-- `config.SaveProjectMetadata`: write `.templatamus/metadata.json`. -/
def SaveProjectMetadata (dir : ProjectDir) (m : ProjectMetadata) : ProjectDir :=
  { dir with metadata := .parsed m }

/-- `config.CreateInitialMetadata` (internal/config/config.go). -/
def CreateInitialMetadata (repo branch commit : String) (now : Nat) :
    ProjectMetadata :=
  { sourceRepo := repo
    sourceBranch := branch
    sourceCommit := commit
    createdAt := now
    lastSyncedAt := now
    appliedCommits := [commit] }

/-- Result of `git.ApplyDiff` (internal/git/git.go): success, failure with
leftover `.rej` reject artifacts (a conflict), or any other error. -/
inductive ApplyResult where
  | ok
  | conflict
  | err (msg : String)
  deriving Repr, DecidableEq

/-- Outcome of a sync run: success, an error carrying the Go error message,
or a Go panic (string slice out of range). -/
inductive SyncOutcome where
  | ok
  | err (msg : String)
  | panic
  deriving Repr, DecidableEq

/-- The environment of external collaborators consumed by `SyncProject`:
the GitHub client (`GetCommits`, `GetDiff`), the git subprocess layer
(`ApplyDiff` keyed by diff content, `CommitChanges` keyed by message), the
interactive prompts, the success of each file-system write, and the clock. -/
structure SyncEnv where
  fetchedCommits : Except String (List CommitInfo)
  getDiff : String → Except String String
  applyDiff : String → ApplyResult
  commitOk : String → Bool
  multiSelect : List String → List String
  confirmResolved : Bool
  confirmSkip : Bool
  writePatchOk : Bool
  saveSyncStatusOk : Bool
  saveMetadataOk : Bool
  clearStatusOk : Bool
  now : Nat

/-! ### Commit reconciliation (sync.go lines 97-138) -/

/-- The order used by `sort.Slice(commits, ...Date.Before...)`: ascending by
timestamp. -/
def dateLE (a b : CommitInfo) : Prop := a.date ≤ b.date

instance : DecidableRel dateLE := fun a b => Nat.decLe a.date b.date

instance : IsTotal CommitInfo dateLE := ⟨fun a b => Nat.le_total a.date b.date⟩

instance : IsTrans CommitInfo dateLE := ⟨fun _ _ _ h1 h2 => Nat.le_trans h1 h2⟩

/-- sync.go lines 107-110: sort the fetched commits ascending by date. -/
def sortCommits (commits : List CommitInfo) : List CommitInfo :=
  List.insertionSort dateLE commits

/-- sync.go lines 113-120: linear scan for the first commit whose SHA equals
`source`, breaking at the first hit. -/
def findSourceIdx (commits : List CommitInfo) (source : String) : Option Nat :=
  List.findIdx? (fun c => c.sha == source) commits

/-- The shared body of both reconciliation loops (sync.go lines 125-129 and
131-137): walk the commits in order, keeping those whose SHA is not in the
applied set. -/
def collectNew (applied : List String) : List CommitInfo → List CommitInfo
  | [] => []
  | c :: rest =>
    if applied.contains c.sha then collectNew applied rest
    else c :: collectNew applied rest

/-- sync.go lines 112-138: compute the candidate commits from the sorted
history.  If the source commit is found at index `i`, iterate the suffix
from `i+1` (the Go `for i := sourceCommitIndex + 1` loop walks exactly
`sorted.drop (i+1)`); otherwise iterate the whole list, and report the
anchor as not found (the warning case).  Returns (candidates, found). -/
def reconcile (sorted : List CommitInfo) (source : String)
    (applied : List String) : List CommitInfo × Bool :=
  match findSourceIdx sorted source with
  | some i => (collectNew applied (sorted.drop (i + 1)), true)
  | none => (collectNew applied sorted, false)

/-- The warning printed at sync.go line 123; `s8` is `SourceCommit[:8]`. -/
def sourceNotFoundWarning (s8 : String) : String :=
  "Warning: Source commit " ++ s8 ++ " not found in commit history."

/-! ### Commit selection (internal/cli/prompt.go, `ChooseCommits`) -/

/-- The option label built at prompt.go lines 300-310:
`fmt.Sprintf("%s %s%s", SHA[:8], status, firstLine(Message))`. -/
def commitOptionLabel (c : CommitInfo) (s8 : String) : String :=
  s8 ++ " " ++ (if c.isApplied then "[APPLIED] " else "") ++ firstLine c.message

/-- Build the option labels for `ChooseCommits` (and the identical `SHA[:8]`
slices in `DisplayCommits`); `none` models the panic on a SHA shorter than
8 characters. -/
def optionsOf : List CommitInfo → Option (List String)
  | [] => some []
  | c :: rest =>
    match goSlice c.sha 8 with
    | none => none
    | some s8 =>
      match optionsOf rest with
      | none => none
      | some opts => some (commitOptionLabel c s8 :: opts)

/-- prompt.go lines 318-326: map each selected label back to the first
option with an equal label, collecting the commit at that index. -/
def mapBack (options : List String) (commits : List CommitInfo) :
    List String → List CommitInfo
  | [] => []
  | sel :: rest =>
    match List.findIdx? (fun o => o == sel) options with
    | some i =>
      match commits[i]? with
      | some c => c :: mapBack options commits rest
      | none => mapBack options commits rest
    | none => mapBack options commits rest

/-- `cli.ChooseCommits` (prompt.go lines 297-329): display the commits,
offer the labels to the multi-select collaborator, and map the returned
selection back to commits.  `none` models the panic on a short SHA. -/
def chooseCommits (env : SyncEnv) (commits : List CommitInfo) :
    Option (List CommitInfo) :=
  match optionsOf commits with
  | none => none
  | some options => some (mapBack options commits (env.multiSelect options))

/-! ### The apply loop (sync.go lines 159-235) -/

/-- In-memory state threaded through the apply loop: the persisted
directory, the in-memory `metadata` struct (mutated before each save), and
the ghost trace of commits whose application was attempted. -/
structure LoopState where
  dir : ProjectDir
  metadata : ProjectMetadata
  attempted : List CommitInfo
  deriving Repr, DecidableEq

/-- The commit message built at sync.go line 221. -/
def syncedMsg (md : ProjectMetadata) (c : CommitInfo) : String :=
  "Synced with " ++ md.sourceRepo ++ ": " ++ firstLine c.message

/-- The error returned at sync.go line 217. -/
def conflictErrMsg : String :=
  "merge conflicts detected, please resolve manually and run templatamus again"

/-- The SyncStatus record written at sync.go lines 191-195.  The Go code
assigns every field of the previously loaded status, so the record does not
depend on it. -/
def conflictRecord (c : CommitInfo) (now : Nat) : SyncStatus :=
  { inProgress := true
    currentCommit := c.sha
    hasConflicts := true
    conflictsAt := now
    conflictCommit := some c }

/-- sync.go lines 159-235: apply each selected commit in order.
`appliedSet` is the lookup map built once at lines 98-101 (it is not
updated inside the loop).  Each processed commit's `SHA[:8]` is sliced for
display, so a short SHA panics.  On conflict the patch is saved, the
conflict record is written, and the run stops with `conflictErrMsg`; on
success the change is committed, the metadata extended and persisted, and
the loop continues. -/
def applyLoop (env : SyncEnv) (appliedSet : List String) :
    LoopState → List CommitInfo → LoopState × SyncOutcome
  | st, [] => (st, .ok)
  | st, commit :: rest =>
    if appliedSet.contains commit.sha then
      match goSlice commit.sha 8 with
      | none => (st, .panic)
      | some _ => applyLoop env appliedSet st rest
    else
      match goSlice commit.sha 8 with
      | none => (st, .panic)
      | some _ =>
        match env.getDiff commit.sha with
        | .error e =>
          (st, .err ("failed to get diff for commit " ++ commit.sha ++ ": " ++ e))
        | .ok diff =>
          let st1 : LoopState := { st with attempted := st.attempted ++ [commit] }
          match env.applyDiff diff with
          | .err e => (st1, .err ("failed to apply diff: " ++ e))
          | .conflict =>
            if env.writePatchOk = false then
              (st1, .err "failed to save patch file")
            else
              let dir1 := { st1.dir with patchFile := some diff }
              if env.saveSyncStatusOk = false then
                ({ st1 with dir := dir1 }, .err "failed to save sync status")
              else
                ({ st1 with
                    dir := SaveSyncStatus dir1 (conflictRecord commit env.now) },
                  .err conflictErrMsg)
          | .ok =>
            let msg := syncedMsg st1.metadata commit
            if env.commitOk msg = false then
              (st1, .err "failed to commit changes")
            else
              let dir1 := { st1.dir with gitLog := st1.dir.gitLog ++ [msg] }
              let md1 := { st1.metadata with
                appliedCommits := st1.metadata.appliedCommits ++ [commit.sha]
                lastSyncedAt := env.now }
              if env.saveMetadataOk = false then
                ({ st1 with dir := dir1, metadata := md1 },
                  .err "failed to update metadata")
              else
                applyLoop env appliedSet
                  { dir := SaveProjectMetadata dir1 md1
                    metadata := md1
                    attempted := st1.attempted } rest

/-! ### Conflict resolution (sync.go lines 241-296) -/

/-- The commit message built at sync.go line 276. -/
def resolvedMsg (md : ProjectMetadata) (c : CommitInfo) : String :=
  "Synced with " ++ md.sourceRepo ++ ": " ++ firstLine c.message
    ++ " (resolved conflicts)"

/-- `handleConflictResolution` (sync.go lines 241-296): with a persisted
conflict, either commit the resolved tree, mark the commit applied and clear
the status; or (declined) skip by clearing the status only; or fail leaving
everything untouched. -/
def handleConflictResolution (env : SyncEnv) (dir : ProjectDir)
    (md : ProjectMetadata) (ss : SyncStatus) : ProjectDir × SyncOutcome :=
  match ss.conflictCommit with
  | none => (dir, .err "missing conflict commit information")
  | some commit =>
    match goSlice commit.sha 8 with
    | none => (dir, .panic)
    | some _ =>
      if env.confirmResolved then
        let msg := resolvedMsg md commit
        if env.commitOk msg = false then
          (dir, .err "failed to commit resolved changes")
        else
          let dir1 := { dir with gitLog := dir.gitLog ++ [msg] }
          let md1 := { md with
            appliedCommits := md.appliedCommits ++ [commit.sha]
            lastSyncedAt := env.now }
          if env.saveMetadataOk = false then
            (dir1, .err "failed to update metadata")
          else
            let dir2 := SaveProjectMetadata dir1 md1
            if env.clearStatusOk = false then
              (dir2, .err "failed to clear sync status")
            else (ClearSyncStatus dir2, .ok)
      else
        if env.confirmSkip then
          if env.clearStatusOk = false then
            (dir, .err "failed to clear sync status")
          else (ClearSyncStatus dir, .ok)
        else (dir, .err "sync aborted, please resolve conflicts and try again")

/-! ### The sync driver (sync.go lines 57-239) -/

/-- Ghost trace of one `SyncProject` run: whether the conflict-resolution
branch was entered, the warnings printed, the reconciled candidate list,
and the commits whose application was attempted. -/
structure SyncTrace where
  enteredConflictRes : Bool := false
  warnings : List String := []
  candidates : List CommitInfo := []
  attempted : List CommitInfo := []
  deriving Repr, DecidableEq

/-- sync.go lines 81-238: the part of `SyncProject` after the in-progress
guard — validate the repo slug, fetch the history, reconcile, let the
operator select, and run the apply loop. -/
def syncReconcileAndApply (env : SyncEnv) (dir : ProjectDir)
    (md : ProjectMetadata) (s8 : String) :
    ProjectDir × SyncOutcome × SyncTrace :=
  if (goSplit md.sourceRepo '/').length ≠ 2 then
    (dir, .err ("invalid repository format: " ++ md.sourceRepo), {})
  else
    match env.fetchedCommits with
    | .error e => (dir, .err ("failed to get commits: " ++ e), {})
    | .ok commits =>
      let appliedSet := md.appliedCommits
      let sorted := sortCommits commits
      let rec1 := reconcile sorted md.sourceCommit appliedSet
      let newCommits := rec1.1
      let warns := if rec1.2 then [] else [sourceNotFoundWarning s8]
      if newCommits.isEmpty then
        (dir, .ok, { warnings := warns, candidates := newCommits })
      else
        match chooseCommits env newCommits with
        | none => (dir, .panic, { warnings := warns, candidates := newCommits })
        | some selectedCommits =>
          if selectedCommits.isEmpty then
            (dir, .ok, { warnings := warns, candidates := newCommits })
          else
            let r := applyLoop env appliedSet
              { dir := dir, metadata := md, attempted := [] } selectedCommits
            (r.1.dir, r.2,
              { warnings := warns, candidates := newCommits,
                attempted := r.1.attempted })

/-- `SyncProject` (sync.go lines 57-239): load the metadata (whose
`SourceCommit[:8]` is sliced unconditionally at line 67), load the sync
status, divert to conflict resolution when a conflicted sync is in
progress, and otherwise reconcile and apply. -/
def SyncProject (env : SyncEnv) (dir : ProjectDir) :
    ProjectDir × SyncOutcome × SyncTrace :=
  match LoadProjectMetadata dir with
  | .error e => (dir, .err ("failed to load project metadata: " ++ e), {})
  | .ok md =>
    match goSlice md.sourceCommit 8 with
    | none => (dir, .panic, {})
    | some s8 =>
      match LoadSyncStatus dir with
      | .error e => (dir, .err ("failed to load sync status: " ++ e), {})
      | .ok ss =>
        if ss.inProgress && ss.hasConflicts then
          let r := handleConflictResolution env dir md ss
          (r.1, r.2, { enteredConflictRes := true })
        else
          syncReconcileAndApply env dir md s8

/-! ### The project-creation tag path (cmd/templatamus/main.go
lines 156-207) -/

/-- Outcome of creating a new project: the metadata that was persisted, an
error, or a panic. -/
inductive CreateOutcome where
  | ok (m : ProjectMetadata)
  | err (msg : String)
  | panic
  deriving Repr, DecidableEq

/-- The `case "tag"` arm of `createNewProject` (main.go lines 156-207) from
the point the tag `ref` has been chosen: `getCommitSHAForTag` either
resolves the tag to a commit SHA or fails, in which case the raw tag name
is used as the commit identifier (lines 170-175); line 178 then slices
`commitSHA[:8]` before anything is downloaded or persisted; on success the
project is created and `CreateInitialMetadata` persists the metadata. -/
def createNewProjectTagPath (repoFull ref : String)
    (resolveTag : Except String String) (downloadOk createOk : Bool)
    (now : Nat) : CreateOutcome :=
  let commitSHA :=
    match resolveTag with
    | .ok sha => sha
    | .error _ => ref
  match goSlice commitSHA 8 with
  | none => .panic
  | some _ =>
    if downloadOk = false then .err "failed to download zip"
    else if createOk = false then .err "failed to create project"
    else .ok (CreateInitialMetadata repoFull ref commitSHA now)

/-! ### Concrete inputs used to instantiate the theorems -/

/-- A default environment for concrete runs; individual runs override the
fields they exercise. -/
def envBase : SyncEnv :=
  { fetchedCommits := .ok []
    getDiff := fun _ => .ok "DIFF"
    applyDiff := fun _ => .ok
    commitOk := fun _ => true
    multiSelect := fun opts => opts
    confirmResolved := true
    confirmSkip := false
    writePatchOk := true
    saveSyncStatusOk := true
    saveMetadataOk := true
    clearStatusOk := true
    now := 7 }

def cA1 : CommitInfo :=
  { sha := "aaaaaaa1", message := "m1", author := "au", date := 1, url := "" }

def cA2 : CommitInfo :=
  { sha := "aaaaaaa2", message := "m2", author := "au", date := 2, url := "" }

def cA3 : CommitInfo :=
  { sha := "aaaaaaa3", message := "m3", author := "au", date := 3, url := "" }

def mdA : ProjectMetadata :=
  { sourceRepo := "own/tpl", sourceBranch := "main", sourceCommit := "aaaaaaa1"
    createdAt := 0, lastSyncedAt := 0, appliedCommits := ["aaaaaaa1"] }

def dirA : ProjectDir :=
  { metadata := .parsed mdA, syncStatus := .absent, patchFile := none
    gitLog := [] }

def envA : SyncEnv :=
  { envBase with fetchedCommits := .ok [cA1, cA2, cA3] }

def cB1 : CommitInfo :=
  { sha := "bbbbbbb1", message := "m1", author := "au", date := 1, url := "" }

def cB2 : CommitInfo :=
  { sha := "bbbbbbb2", message := "m2", author := "au", date := 2, url := "" }

def cB3 : CommitInfo :=
  { sha := "bbbbbbb3", message := "m3", author := "au", date := 3, url := "" }

def cB4 : CommitInfo :=
  { sha := "bbbbbbb4", message := "m4", author := "au", date := 4, url := "" }

def cB5 : CommitInfo :=
  { sha := "bbbbbbb5", message := "m5", author := "au", date := 5, url := "" }

def mdB : ProjectMetadata :=
  { sourceRepo := "own/tpl", sourceBranch := "main", sourceCommit := "cccccccc"
    createdAt := 0, lastSyncedAt := 0
    appliedCommits := ["bbbbbbb1", "bbbbbbb3"] }

def dirB : ProjectDir :=
  { metadata := .parsed mdB, syncStatus := .absent, patchFile := none
    gitLog := [] }

def envB : SyncEnv :=
  { envBase with fetchedCommits := .ok [cB1, cB2, cB3, cB4, cB5] }

def XC : CommitInfo :=
  { sha := "ccccccc1", message := "mc", author := "au", date := 4, url := "" }

def mdC : ProjectMetadata :=
  { sourceRepo := "own/tpl", sourceBranch := "main", sourceCommit := "aaaaaaa1"
    createdAt := 0, lastSyncedAt := 0, appliedCommits := ["aaaaaaa1"] }

def dirC : ProjectDir :=
  { metadata := .parsed mdC, syncStatus := .absent, patchFile := none
    gitLog := [] }

def stC : LoopState := { dir := dirC, metadata := mdC, attempted := [] }

def envC : SyncEnv := { envBase with applyDiff := fun _ => .conflict }

def XD : CommitInfo :=
  { sha := "ddddddd1", message := "md", author := "au", date := 4, url := "" }

def mdD : ProjectMetadata :=
  { sourceRepo := "own/tpl", sourceBranch := "main", sourceCommit := "aaaaaaa1"
    createdAt := 0, lastSyncedAt := 0, appliedCommits := ["aaaaaaa1"] }

def ssD : SyncStatus :=
  { inProgress := true, currentCommit := "ddddddd1", hasConflicts := true
    conflictsAt := 3, conflictCommit := some XD }

def dirD : ProjectDir :=
  { metadata := .parsed mdD, syncStatus := .parsed ssD, patchFile := some "P"
    gitLog := ["old"] }

def envD : SyncEnv := envBase

def envE : SyncEnv :=
  { envBase with confirmResolved := false, confirmSkip := true }

def envF : SyncEnv :=
  { envBase with getDiff := fun _ => .error "boom" }

def XF : CommitInfo :=
  { sha := "fffffff1", message := "mf", author := "au", date := 4, url := "" }

def stF : LoopState := { dir := dirC, metadata := mdC, attempted := [] }

def cG1 : CommitInfo :=
  { sha := "ggggggg1", message := "m1", author := "au", date := 1, url := "" }

def cG2 : CommitInfo :=
  { sha := "ggggggg2", message := "m2", author := "au", date := 2, url := "" }

def cG3 : CommitInfo :=
  { sha := "ggggggg3", message := "m3", author := "au", date := 3, url := "" }

def mdG : ProjectMetadata :=
  { sourceRepo := "own/tpl", sourceBranch := "main", sourceCommit := "ggggggg1"
    createdAt := 0, lastSyncedAt := 0, appliedCommits := ["ggggggg1"] }

def dirG : ProjectDir :=
  { metadata := .parsed mdG, syncStatus := .absent, patchFile := none
    gitLog := [] }

/-- An environment whose multi-select collaborator returns the checked
options in reverse presentation order. -/
def envG : SyncEnv :=
  { envBase with fetchedCommits := .ok [cG1, cG2, cG3]
                 multiSelect := fun opts => opts.reverse }

def cH1 : CommitInfo :=
  { sha := "hhhhhhh1", message := "m1", author := "au", date := 1, url := "" }

def cH2 : CommitInfo :=
  { sha := "hhhhhhh2", message := "m2", author := "au", date := 2, url := "" }

def cH3 : CommitInfo :=
  { sha := "hhhhhhh3", message := "m3", author := "au", date := 3, url := "" }

def mdH : ProjectMetadata :=
  { sourceRepo := "own/tpl", sourceBranch := "main", sourceCommit := "hhhhhhh1"
    createdAt := 0, lastSyncedAt := 0, appliedCommits := ["hhhhhhh1"] }

def dirH : ProjectDir :=
  { metadata := .parsed mdH, syncStatus := .absent, patchFile := none
    gitLog := [] }

def envH : SyncEnv :=
  { envBase with fetchedCommits := .ok [cH1, cH2, cH3] }

def optsH : List String := ["hhhhhhh2 m2", "hhhhhhh3 m3"]

def mdI : ProjectMetadata :=
  { sourceRepo := "own/tpl", sourceBranch := "main", sourceCommit := "v1.0"
    createdAt := 0, lastSyncedAt := 0, appliedCommits := ["v1.0"] }

def dirI : ProjectDir :=
  { metadata := .parsed mdI, syncStatus := .absent, patchFile := none
    gitLog := [] }

def envI : SyncEnv := envBase

def mdJ : ProjectMetadata :=
  { sourceRepo := "own/tpl", sourceBranch := "main", sourceCommit := "jjjjjjj1"
    createdAt := 0, lastSyncedAt := 0, appliedCommits := ["jjjjjjj1"] }

/-- A stale sync record with `in_progress` set but `has_conflicts` unset. -/
def ssJ : SyncStatus :=
  { inProgress := true, currentCommit := "jjjjjjj9", hasConflicts := false
    conflictsAt := 2, conflictCommit := none }

def dirJ : ProjectDir :=
  { metadata := .parsed mdJ, syncStatus := .parsed ssJ, patchFile := none
    gitLog := [] }

def envJ : SyncEnv := envBase

def dirK : ProjectDir :=
  { metadata := .absent, syncStatus := .absent, patchFile := none
    gitLog := [] }

/-! ### Supporting lemmas -/

theorem collectNew_eq_filter (a : List String) (l : List CommitInfo) :
    collectNew a l = l.filter (fun c => !(a.contains c.sha)) := by
  induction l with
  | nil => rfl
  | cons c rest ih =>
    cases h : a.contains c.sha with
    | true =>
      have hm : c.sha ∈ a := by simpa using h
      rw [collectNew, if_pos h, List.filter_cons, ih]
      simp [hm]
    | false =>
      have hm : c.sha ∉ a := by simpa using h
      rw [collectNew, if_neg (by simp [hm]), List.filter_cons, ih]
      simp [hm]

theorem sortCommits_sorted (l : List CommitInfo) :
    List.Sorted dateLE (sortCommits l) :=
  List.sorted_insertionSort dateLE l

theorem reconcile_fst_sublist (sorted : List CommitInfo) (src : String)
    (a : List String) : List.Sublist (reconcile sorted src a).1 sorted := by
  unfold reconcile
  cases h : findSourceIdx sorted src with
  | some i =>
    simpa [collectNew_eq_filter] using
      (List.filter_sublist (l := sorted.drop (i + 1))
        (p := fun c => !(a.contains c.sha))).trans (List.drop_sublist (i + 1) sorted)
  | none => simp [collectNew_eq_filter, List.filter_sublist]

theorem reconcile_sorted (l : List CommitInfo) (src : String) (a : List String) :
    List.Sorted dateLE (reconcile (sortCommits l) src a).1 :=
  (sortCommits_sorted l).sublist (reconcile_fst_sublist (sortCommits l) src a)

theorem mem_reconcile_of_after_anchor (sorted : List CommitInfo) (src : String)
    (a : List String) (X : CommitInfo) (i : Nat)
    (hfind : findSourceIdx sorted src = some i)
    (hmem : X ∈ sorted.drop (i + 1)) (hnot : X.sha ∉ a) :
    X ∈ (reconcile sorted src a).1 := by
  have hc : a.contains X.sha = false := by
    cases hcc : a.contains X.sha with
    | false => rfl
    | true => exact absurd (by simpa [List.contains] using hcc) hnot
  unfold reconcile
  rw [hfind]
  simp [collectNew_eq_filter, List.mem_filter, hmem, hc, hnot]

theorem loadSyncStatus_saveSyncStatus (dir : ProjectDir) (s : SyncStatus) :
    LoadSyncStatus (SaveSyncStatus dir s) = .ok s := rfl

theorem mapBack_nil_commits (options : List String) (sel : List String) :
    mapBack options [] sel = [] := by
  induction sel with
  | nil => rfl
  | cons s rest ih =>
    unfold mapBack
    cases h : List.findIdx? (fun o => o == s) options with
    | none => simpa using ih
    | some i => simpa using ih

theorem mapBack_cons_irrelevant (o : String) (c : CommitInfo)
    (options : List String) (commits : List CommitInfo) (sel : List String)
    (h : ∀ s ∈ sel, s ≠ o) :
    mapBack (o :: options) (c :: commits) sel = mapBack options commits sel := by
  induction sel with
  | nil => rfl
  | cons s rest ih =>
    have hs : s ≠ o := h s (by simp)
    have hrest : ∀ x ∈ rest, x ≠ o := fun x hx => h x (by simp [hx])
    have hbeq : (o == s) = false := by
      simpa using fun hh => hs hh.symm
    unfold mapBack
    rw [List.findIdx?_cons, hbeq, if_neg (by simp), List.findIdx?_succ]
    cases hf : List.findIdx? (fun x => x == s) options with
    | none => simpa [hf] using ih hrest
    | some i => simp only [hf, Option.map_some, List.getElem?_cons_succ]
                cases hg : commits[i]? with
                | none => simpa [hg] using ih hrest
                | some c2 => simpa [hg] using congrArg (fun l => c2 :: l) (ih hrest)

theorem mapBack_sublist (options : List String) (commits : List CommitInfo)
    (sel : List String) (hnd : options.Nodup)
    (hsub : List.Sublist sel options) :
    List.Sublist (mapBack options commits sel) commits := by
  induction options generalizing sel commits with
  | nil =>
    have hnil : sel = [] := List.sublist_nil.mp hsub
    subst hnil
    exact List.nil_sublist commits
  | cons o opts ih =>
    have ho : o ∉ opts := (List.nodup_cons.mp hnd).1
    have hnd2 : opts.Nodup := (List.nodup_cons.mp hnd).2
    cases commits with
    | nil => rw [mapBack_nil_commits]
    | cons c cs =>
      cases hsub with
      | cons _ h2 =>
        have hne : ∀ s ∈ sel, s ≠ o := fun s hs heq =>
          ho (heq ▸ h2.subset hs)
        rw [mapBack_cons_irrelevant o c opts cs sel hne]
        exact (ih cs sel hnd2 h2).cons c
      | cons₂ _ h2 =>
        rename_i tail
        have hne : ∀ s ∈ tail, s ≠ o := fun s hs heq =>
          ho (heq ▸ h2.subset hs)
        unfold mapBack
        rw [List.findIdx?_cons]
        simp only [beq_self_eq_true, if_true, List.getElem?_cons_zero]
        rw [mapBack_cons_irrelevant o c opts cs tail hne]
        exact (ih cs tail hnd2 h2).cons₂ c

theorem applyLoop_attempted (env : SyncEnv) (aset : List String) :
    ∀ (sel : List CommitInfo) (st : LoopState),
    ∃ t, (applyLoop env aset st sel).1.attempted = st.attempted ++ t ∧
      List.Sublist t sel := by
  intro sel
  induction sel with
  | nil =>
    intro st
    exact ⟨[], by simp [applyLoop], List.nil_sublist []⟩
  | cons c rest ih =>
    intro st
    simp only [applyLoop]
    cases h1 : aset.contains c.sha with
    | true =>
      simp only [if_true]
      cases hg : goSlice c.sha 8 with
      | none => exact ⟨[], by simp [hg], List.nil_sublist _⟩
      | some s8 =>
        obtain ⟨t, ht, hs⟩ := ih st
        exact ⟨t, ht, hs.cons c⟩
    | false =>
      simp only [Bool.false_eq_true, if_false]
      cases hg : goSlice c.sha 8 with
      | none => exact ⟨[], by simp [hg], List.nil_sublist _⟩
      | some s8 =>
        cases hd : env.getDiff c.sha with
        | error e => exact ⟨[], by simp [hd], List.nil_sublist _⟩
        | ok diff =>
          cases ha : env.applyDiff diff with
          | err e =>
            exact ⟨[c], by simp [hd, ha], (List.nil_sublist rest).cons₂ c⟩
          | conflict =>
            cases hw : env.writePatchOk with
            | false =>
              exact ⟨[c], by simp [hd, ha, hw], (List.nil_sublist rest).cons₂ c⟩
            | true =>
              cases hss : env.saveSyncStatusOk with
              | false =>
                exact ⟨[c], by simp [hd, ha, hw, hss], (List.nil_sublist rest).cons₂ c⟩
              | true =>
                exact ⟨[c], by simp [hd, ha, hw, hss], (List.nil_sublist rest).cons₂ c⟩
          | ok =>
            cases hc : env.commitOk (syncedMsg st.metadata c) with
            | false =>
              exact ⟨[c], by simp [hd, ha, hc], (List.nil_sublist rest).cons₂ c⟩
            | true =>
              cases hm : env.saveMetadataOk with
              | false =>
                exact ⟨[c], by simp [hd, ha, hc, hm], (List.nil_sublist rest).cons₂ c⟩
              | true =>
                obtain ⟨t, ht, hs⟩ := ih
                  { dir := SaveProjectMetadata
                      { st.dir with gitLog := st.dir.gitLog ++ [syncedMsg st.metadata c] }
                      { st.metadata with
                          appliedCommits := st.metadata.appliedCommits ++ [c.sha]
                          lastSyncedAt := env.now }
                    metadata := { st.metadata with
                        appliedCommits := st.metadata.appliedCommits ++ [c.sha]
                        lastSyncedAt := env.now }
                    attempted := st.attempted ++ [c] }
                refine ⟨c :: t, ?_, hs.cons₂ c⟩
                simp [hd, ha, hc, hm, ht]

theorem applyLoop_status_indep (env : SyncEnv) (aset : List String) :
    ∀ (sel : List CommitInfo) (md : ProjectMetadata) (att : List CommitInfo)
      (m : FileData ProjectMetadata) (pf : Option String) (gl : List String)
      (s₁ s₂ : FileData SyncStatus),
    ∃ (m' : FileData ProjectMetadata) (pf' : Option String) (gl' : List String)
      (md' : ProjectMetadata) (att' : List CommitInfo) (o : SyncOutcome)
      (sOpt : Option (FileData SyncStatus)),
      applyLoop env aset ⟨⟨m, s₁, pf, gl⟩, md, att⟩ sel =
        (⟨⟨m', sOpt.getD s₁, pf', gl'⟩, md', att'⟩, o) ∧
      applyLoop env aset ⟨⟨m, s₂, pf, gl⟩, md, att⟩ sel =
        (⟨⟨m', sOpt.getD s₂, pf', gl'⟩, md', att'⟩, o) := by
  intro sel
  induction sel with
  | nil =>
    intro md att m pf gl s₁ s₂
    exact ⟨m, pf, gl, md, att, .ok, none, by simp [applyLoop], by simp [applyLoop]⟩
  | cons c rest ih =>
    intro md att m pf gl s₁ s₂
    cases h1 : aset.contains c.sha with
    | true =>
      have hm1 : c.sha ∈ aset := by simpa using h1
      cases hg : goSlice c.sha 8 with
      | none =>
        exact ⟨m, pf, gl, md, att, .panic, none,
          by simp [applyLoop, hm1, hg], by simp [applyLoop, hm1, hg]⟩
      | some s8 =>
        obtain ⟨m', pf', gl', md', att', o, sOpt, e1, e2⟩ :=
          ih md att m pf gl s₁ s₂
        refine ⟨m', pf', gl', md', att', o, sOpt, ?_, ?_⟩
        · rw [applyLoop, if_pos h1, hg]
          exact e1
        · rw [applyLoop, if_pos h1, hg]
          exact e2
    | false =>
      have h1' : ¬(aset.contains c.sha = true) := by rw [h1]; exact Bool.false_ne_true
      have hm1 : c.sha ∉ aset := by simpa using h1
      cases hg : goSlice c.sha 8 with
      | none =>
        exact ⟨m, pf, gl, md, att, .panic, none,
          by simp [applyLoop, hm1, hg], by simp [applyLoop, hm1, hg]⟩
      | some s8 =>
        cases hd : env.getDiff c.sha with
        | error e =>
          exact ⟨m, pf, gl, md, att,
            .err ("failed to get diff for commit " ++ c.sha ++ ": " ++ e), none,
            by simp [applyLoop, hm1, hg, hd], by simp [applyLoop, hm1, hg, hd]⟩
        | ok diff =>
          cases ha : env.applyDiff diff with
          | err e =>
            exact ⟨m, pf, gl, md, att ++ [c],
              .err ("failed to apply diff: " ++ e), none,
              by simp [applyLoop, hm1, hg, hd, ha],
              by simp [applyLoop, hm1, hg, hd, ha]⟩
          | conflict =>
            cases hw : env.writePatchOk with
            | false =>
              exact ⟨m, pf, gl, md, att ++ [c], .err "failed to save patch file",
                none, by simp [applyLoop, hm1, hg, hd, ha, hw],
                by simp [applyLoop, hm1, hg, hd, ha, hw]⟩
            | true =>
              cases hss : env.saveSyncStatusOk with
              | false =>
                exact ⟨m, some diff, gl, md, att ++ [c],
                  .err "failed to save sync status", none,
                  by simp [applyLoop, hm1, hg, hd, ha, hw, hss],
                  by simp [applyLoop, hm1, hg, hd, ha, hw, hss]⟩
              | true =>
                exact ⟨m, some diff, gl, md, att ++ [c], .err conflictErrMsg,
                  some (.parsed (conflictRecord c env.now)),
                  by simp [applyLoop, SaveSyncStatus, hm1, hg, hd, ha, hw, hss],
                  by simp [applyLoop, SaveSyncStatus, hm1, hg, hd, ha, hw, hss]⟩
          | ok =>
            cases hc : env.commitOk (syncedMsg md c) with
            | false =>
              exact ⟨m, pf, gl, md, att ++ [c], .err "failed to commit changes",
                none, by simp [applyLoop, hm1, hg, hd, ha, hc],
                by simp [applyLoop, hm1, hg, hd, ha, hc]⟩
            | true =>
              cases hm : env.saveMetadataOk with
              | false =>
                exact ⟨m, pf, gl ++ [syncedMsg md c],
                  { md with appliedCommits := md.appliedCommits ++ [c.sha]
                            lastSyncedAt := env.now },
                  att ++ [c], .err "failed to update metadata", none,
                  by simp [applyLoop, hm1, hg, hd, ha, hc, hm],
                  by simp [applyLoop, hm1, hg, hd, ha, hc, hm]⟩
              | true =>
                obtain ⟨m', pf', gl', md', att', o, sOpt, e1, e2⟩ :=
                  ih { md with appliedCommits := md.appliedCommits ++ [c.sha]
                               lastSyncedAt := env.now }
                    (att ++ [c])
                    (.parsed { md with
                        appliedCommits := md.appliedCommits ++ [c.sha]
                        lastSyncedAt := env.now })
                    pf (gl ++ [syncedMsg md c]) s₁ s₂
                refine ⟨m', pf', gl', md', att', o, sOpt, ?_, ?_⟩
                · rw [applyLoop, if_neg h1', hg, hd]
                  simp only [ha, hc, hm, Bool.true_eq_false, if_false,
                    SaveProjectMetadata]
                  exact e1
                · rw [applyLoop, if_neg h1', hg, hd]
                  simp only [ha, hc, hm, Bool.true_eq_false, if_false,
                    SaveProjectMetadata]
                  exact e2

theorem syncRA_status_indep (env : SyncEnv) (md : ProjectMetadata) (s8 : String)
    (m : FileData ProjectMetadata) (pf : Option String) (gl : List String)
    (s₁ s₂ : FileData SyncStatus) :
    ∃ (m' : FileData ProjectMetadata) (pf' : Option String) (gl' : List String)
      (o : SyncOutcome) (tr : SyncTrace) (sOpt : Option (FileData SyncStatus)),
      syncReconcileAndApply env ⟨m, s₁, pf, gl⟩ md s8 =
        (⟨m', sOpt.getD s₁, pf', gl'⟩, o, tr) ∧
      syncReconcileAndApply env ⟨m, s₂, pf, gl⟩ md s8 =
        (⟨m', sOpt.getD s₂, pf', gl'⟩, o, tr) := by
  by_cases hfmt : (goSplit md.sourceRepo '/').length = 2
  case neg =>
    exact ⟨m, pf, gl, .err ("invalid repository format: " ++ md.sourceRepo), {},
      none, by simp [syncReconcileAndApply, hfmt],
      by simp [syncReconcileAndApply, hfmt]⟩
  case pos =>
    cases hf : env.fetchedCommits with
    | error e =>
      exact ⟨m, pf, gl, .err ("failed to get commits: " ++ e), {}, none,
        by simp [syncReconcileAndApply, hfmt, hf],
        by simp [syncReconcileAndApply, hfmt, hf]⟩
    | ok commits =>
      cases hne :
          (reconcile (sortCommits commits) md.sourceCommit md.appliedCommits).1.isEmpty with
      | true =>
        refine ⟨m, pf, gl, .ok,
          { warnings :=
              if (reconcile (sortCommits commits) md.sourceCommit md.appliedCommits).2
              then [] else [sourceNotFoundWarning s8]
            candidates :=
              (reconcile (sortCommits commits) md.sourceCommit md.appliedCommits).1 },
          none, ?_, ?_⟩
        · simp [syncReconcileAndApply, hfmt, hf, hne]
        · simp [syncReconcileAndApply, hfmt, hf, hne]
      | false =>
        cases hcc : chooseCommits env
            (reconcile (sortCommits commits) md.sourceCommit md.appliedCommits).1 with
        | none =>
          refine ⟨m, pf, gl, .panic,
            { warnings :=
                if (reconcile (sortCommits commits) md.sourceCommit md.appliedCommits).2
                then [] else [sourceNotFoundWarning s8]
              candidates :=
                (reconcile (sortCommits commits) md.sourceCommit md.appliedCommits).1 },
            none, ?_, ?_⟩
          · simp [syncReconcileAndApply, hfmt, hf, hne, hcc]
          · simp [syncReconcileAndApply, hfmt, hf, hne, hcc]
        | some sel =>
          cases hse : sel.isEmpty with
          | true =>
            refine ⟨m, pf, gl, .ok,
              { warnings :=
                  if (reconcile (sortCommits commits) md.sourceCommit md.appliedCommits).2
                  then [] else [sourceNotFoundWarning s8]
                candidates :=
                  (reconcile (sortCommits commits) md.sourceCommit md.appliedCommits).1 },
              none, ?_, ?_⟩
            · simp [syncReconcileAndApply, hfmt, hf, hne, hcc, hse]
            · simp [syncReconcileAndApply, hfmt, hf, hne, hcc, hse]
          | false =>
            obtain ⟨m', pf', gl', md', att', o, sOpt, e1, e2⟩ :=
              applyLoop_status_indep env md.appliedCommits sel md [] m pf gl s₁ s₂
            refine ⟨m', pf', gl', o,
              { warnings :=
                  if (reconcile (sortCommits commits) md.sourceCommit md.appliedCommits).2
                  then [] else [sourceNotFoundWarning s8]
                candidates :=
                  (reconcile (sortCommits commits) md.sourceCommit md.appliedCommits).1
                attempted := att' },
              sOpt, ?_, ?_⟩
            · simp [syncReconcileAndApply, hfmt, hf, hne, hcc, hse, e1]
            · simp [syncReconcileAndApply, hfmt, hf, hne, hcc, hse, e2]

theorem syncRA_trace (env : SyncEnv) (dir : ProjectDir) (md : ProjectMetadata)
    (s8 : String) (commits : List CommitInfo)
    (hfmt : (goSplit md.sourceRepo '/').length = 2)
    (hf : env.fetchedCommits = .ok commits) :
    (syncReconcileAndApply env dir md s8).2.2.candidates =
      (reconcile (sortCommits commits) md.sourceCommit md.appliedCommits).1 ∧
    (syncReconcileAndApply env dir md s8).2.2.warnings =
      (if (reconcile (sortCommits commits) md.sourceCommit md.appliedCommits).2
       then [] else [sourceNotFoundWarning s8]) ∧
    ((reconcile (sortCommits commits) md.sourceCommit md.appliedCommits).1.isEmpty
        = true →
      (syncReconcileAndApply env dir md s8).2.1 = .ok) := by
  cases hne :
      (reconcile (sortCommits commits) md.sourceCommit md.appliedCommits).1.isEmpty with
  | true =>
    refine ⟨?_, ?_, fun _ => ?_⟩ <;>
      simp [syncReconcileAndApply, hfmt, hf, hne]
  | false =>
    cases hcc : chooseCommits env
        (reconcile (sortCommits commits) md.sourceCommit md.appliedCommits).1 with
    | none =>
      refine ⟨?_, ?_, fun hh => ?_⟩
      · simp [syncReconcileAndApply, hfmt, hf, hne, hcc]
      · simp [syncReconcileAndApply, hfmt, hf, hne, hcc]
      · simp [hne] at hh
    | some sel =>
      cases hse : sel.isEmpty with
      | true =>
        refine ⟨?_, ?_, fun hh => ?_⟩
        · simp [syncReconcileAndApply, hfmt, hf, hne, hcc, hse]
        · simp [syncReconcileAndApply, hfmt, hf, hne, hcc, hse]
        · simp [hne] at hh
      | false =>
        refine ⟨?_, ?_, fun hh => ?_⟩
        · simp [syncReconcileAndApply, hfmt, hf, hne, hcc, hse]
        · simp [syncReconcileAndApply, hfmt, hf, hne, hcc, hse]
        · simp [hne] at hh

theorem SyncProject_front (env : SyncEnv) (dir : ProjectDir)
    (md : ProjectMetadata) (ss : SyncStatus)
    (h1 : dir.metadata = .parsed md)
    (h2 : 8 ≤ md.sourceCommit.data.length)
    (h3 : LoadSyncStatus dir = .ok ss)
    (h4 : (ss.inProgress && ss.hasConflicts) = false) :
    SyncProject env dir =
      syncReconcileAndApply env dir md
        (String.mk (md.sourceCommit.data.take 8)) := by
  have h2' : 8 ≤ md.sourceCommit.length := h2
  simp [SyncProject, LoadProjectMetadata, h1, goSlice, h2, h2', h3, h4]

theorem SyncProject_conflict_front (env : SyncEnv) (dir : ProjectDir)
    (md : ProjectMetadata) (ss : SyncStatus)
    (h1 : dir.metadata = .parsed md)
    (h2 : 8 ≤ md.sourceCommit.data.length)
    (h3 : LoadSyncStatus dir = .ok ss)
    (h4 : ss.inProgress = true) (h5 : ss.hasConflicts = true) :
    SyncProject env dir =
      ((handleConflictResolution env dir md ss).1,
        (handleConflictResolution env dir md ss).2,
        { enteredConflictRes := true }) := by
  have h2' : 8 ≤ md.sourceCommit.length := h2
  simp [SyncProject, LoadProjectMetadata, h1, goSlice, h2, h2', h3, h4, h5]

/-! ### Claim theorems -/

/-- C1: reconciliation with a found anchor.  For every fetched commit
history and every ProjectMetadata whose source commit occurs in the
timestamp-sorted history (first occurrence at index `i`), the candidate
sequence produced by SyncProject's reconciliation is exactly the commits at
indices strictly greater than `i` that are not members of
`applied_commits`, in ascending timestamp order. -/
theorem spec_C1 (env : SyncEnv) (dir : ProjectDir) (md : ProjectMetadata)
    (ss : SyncStatus) (hist : List CommitInfo) (i : Nat)
    (h1 : dir.metadata = .parsed md)
    (h2 : 8 ≤ md.sourceCommit.data.length)
    (h3 : LoadSyncStatus dir = .ok ss)
    (h4 : (ss.inProgress && ss.hasConflicts) = false)
    (h5 : (goSplit md.sourceRepo '/').length = 2)
    (h6 : env.fetchedCommits = .ok hist)
    (h7 : findSourceIdx (sortCommits hist) md.sourceCommit = some i) :
    (SyncProject env dir).2.2.candidates =
      ((sortCommits hist).drop (i + 1)).filter
        (fun c => !(md.appliedCommits.contains c.sha)) ∧
    List.Sorted dateLE (SyncProject env dir).2.2.candidates := by
  rw [SyncProject_front env dir md ss h1 h2 h3 h4]
  have hc := syncRA_trace env dir md
    (String.mk (md.sourceCommit.data.take 8)) hist h5 h6
  constructor
  · rw [hc.1]
    unfold reconcile
    rw [h7]
    simp [collectNew_eq_filter]
  · rw [hc.1]
    exact reconcile_sorted hist md.sourceCommit md.appliedCommits

/-- Witness for C1: the clean-anchor scenario of the spec — history
[c1(t1), c2(t2), c3(t3)], source commit c1, applied = [c1] gives
candidates [c2, c3]. -/
theorem spec_C1_witness :
    (SyncProject envA dirA).2.2.candidates = [cA2, cA3] :=
  (spec_C1 envA dirA mdA {} [cA1, cA2, cA3] 0 rfl (by decide) rfl rfl
    (by decide) rfl (by decide)).1.trans (by decide)

/-- C2: reconciliation fallback.  When the source commit does not occur in
the fetched history, the candidate sequence is exactly every fetched commit
not in `applied_commits` in ascending timestamp order, the degradation
warning is emitted, and the fallback itself is not an error (an empty
candidate set still ends the run successfully). -/
theorem spec_C2 (env : SyncEnv) (dir : ProjectDir) (md : ProjectMetadata)
    (ss : SyncStatus) (hist : List CommitInfo)
    (h1 : dir.metadata = .parsed md)
    (h2 : 8 ≤ md.sourceCommit.data.length)
    (h3 : LoadSyncStatus dir = .ok ss)
    (h4 : (ss.inProgress && ss.hasConflicts) = false)
    (h5 : (goSplit md.sourceRepo '/').length = 2)
    (h6 : env.fetchedCommits = .ok hist)
    (h7 : findSourceIdx (sortCommits hist) md.sourceCommit = none) :
    (SyncProject env dir).2.2.candidates =
      (sortCommits hist).filter (fun c => !(md.appliedCommits.contains c.sha)) ∧
    List.Sorted dateLE (SyncProject env dir).2.2.candidates ∧
    (SyncProject env dir).2.2.warnings =
      [sourceNotFoundWarning (String.mk (md.sourceCommit.data.take 8))] ∧
    ((SyncProject env dir).2.2.candidates.isEmpty = true →
      (SyncProject env dir).2.1 = .ok) := by
  rw [SyncProject_front env dir md ss h1 h2 h3 h4]
  have hc := syncRA_trace env dir md
    (String.mk (md.sourceCommit.data.take 8)) hist h5 h6
  refine ⟨?_, ?_, ?_, ?_⟩
  · rw [hc.1]
    unfold reconcile
    rw [h7]
    simp [collectNew_eq_filter]
  · rw [hc.1]
    exact reconcile_sorted hist md.sourceCommit md.appliedCommits
  · rw [hc.2.1]
    unfold reconcile
    rw [h7]
    simp
  · intro hh
    rw [hc.1] at hh
    exact hc.2.2 hh

/-- Witness for C2: the spec's 5-commit fallback instance — source commit
absent, {c1, c3} applied, candidates exactly [c2, c4, c5], warning
emitted. -/
theorem spec_C2_witness :
    (SyncProject envB dirB).2.2.candidates = [cB2, cB4, cB5] ∧
    (SyncProject envB dirB).2.2.warnings =
      [sourceNotFoundWarning "cccccccc"] :=
  ⟨(spec_C2 envB dirB mdB {} [cB1, cB2, cB3, cB4, cB5] rfl (by decide) rfl rfl
      (by decide) rfl (by decide)).1.trans (by decide),
    (spec_C2 envB dirB mdB {} [cB1, cB2, cB3, cB4, cB5] rfl (by decide) rfl rfl
      (by decide) rfl (by decide)).2.2.1.trans (by decide)⟩

/-- C8: loadSyncStatus absence-is-clean contract — with no persisted sync
record, loadSyncStatus succeeds with the empty/default status (all flags
false, no conflict commit). -/
theorem spec_C8 (dir : ProjectDir) (h : dir.syncStatus = FileData.absent) :
    LoadSyncStatus dir = .ok {} ∧
    ({} : SyncStatus).inProgress = false ∧
    ({} : SyncStatus).hasConflicts = false ∧
    ({} : SyncStatus).currentCommit = "" ∧
    ({} : SyncStatus).conflictCommit = none := by
  refine ⟨?_, rfl, rfl, rfl, rfl⟩
  simp [LoadSyncStatus, h]

/-- Witness for C8 at a concrete directory with no sync record. -/
theorem spec_C8_witness :
    LoadSyncStatus dirK = .ok {} ∧
    ({} : SyncStatus).inProgress = false ∧
    ({} : SyncStatus).hasConflicts = false ∧
    ({} : SyncStatus).currentCommit = "" ∧
    ({} : SyncStatus).conflictCommit = none :=
  spec_C8 dirK rfl

/-- C3: conflict transition and persistence round-trip.  Whenever applying
a selected commit X reports a conflict, the run writes the conflicting diff
to the patch path, saves a SyncStatus with in_progress, has_conflicts,
current_commit = X.sha and conflict_commit = X, attempts no further
selected commits, terminates with the conflict error, and reloading the
SyncStatus afterwards returns exactly that record. -/
theorem spec_C3 (env : SyncEnv) (aset : List String) (st : LoopState)
    (X : CommitInfo) (rest : List CommitInfo) (diff : String)
    (h1 : aset.contains X.sha = false)
    (h2 : 8 ≤ X.sha.data.length)
    (h3 : env.getDiff X.sha = .ok diff)
    (h4 : env.applyDiff diff = .conflict)
    (h5 : env.writePatchOk = true)
    (h6 : env.saveSyncStatusOk = true) :
    applyLoop env aset st (X :: rest) = applyLoop env aset st [X] ∧
    (applyLoop env aset st (X :: rest)).2 = .err conflictErrMsg ∧
    (applyLoop env aset st (X :: rest)).1.dir.patchFile = some diff ∧
    (applyLoop env aset st (X :: rest)).1.dir.syncStatus =
      .parsed (conflictRecord X env.now) ∧
    (applyLoop env aset st (X :: rest)).1.attempted = st.attempted ++ [X] ∧
    LoadSyncStatus (applyLoop env aset st (X :: rest)).1.dir =
      .ok (conflictRecord X env.now) ∧
    (conflictRecord X env.now).inProgress = true ∧
    (conflictRecord X env.now).hasConflicts = true ∧
    (conflictRecord X env.now).currentCommit = X.sha ∧
    (conflictRecord X env.now).conflictCommit = some X := by
  have hm1 : X.sha ∉ aset := by simpa using h1
  have h2' : 8 ≤ X.sha.length := h2
  refine ⟨?_, ?_, ?_, ?_, ?_, ?_, rfl, rfl, rfl, rfl⟩ <;>
    simp [applyLoop, LoadSyncStatus, SaveSyncStatus, goSlice, hm1, h2, h2',
      h3, h4, h5, h6]

/-- Witness for C3: a concrete conflicting apply — the run ends with the
conflict error and the reloaded record carries the conflicting commit. -/
theorem spec_C3_witness :
    (applyLoop envC [] stC [XC]).2 = .err conflictErrMsg ∧
    LoadSyncStatus (applyLoop envC [] stC [XC]).1.dir =
      .ok (conflictRecord XC envC.now) ∧
    (applyLoop envC [] stC [XC]).1.dir.patchFile = some "DIFF" :=
  ⟨(spec_C3 envC [] stC XC [] "DIFF" (by decide) (by decide) rfl rfl rfl
      rfl).2.1,
    (spec_C3 envC [] stC XC [] "DIFF" (by decide) (by decide) rfl rfl rfl
      rfl).2.2.2.2.2.1,
    (spec_C3 envC [] stC XC [] "DIFF" (by decide) (by decide) rfl rfl rfl
      rfl).2.2.1⟩

/-- C6: failure atomicity during APPLYING.  Any I/O or network error that
is not a content conflict — the diff fetch fails, the patch application
errors without reject artifacts, committing fails, or persisting the
metadata fails — aborts the run immediately with an error, and the failing
step neither changes the persisted metadata (so the commit's identifier is
not added to applied_commits) nor creates a SyncStatus record. -/
theorem spec_C6 (env : SyncEnv) (aset : List String) (st : LoopState)
    (X : CommitInfo) (rest : List CommitInfo)
    (h1 : aset.contains X.sha = false)
    (h2 : 8 ≤ X.sha.data.length)
    (herr :
      (∃ e, env.getDiff X.sha = .error e) ∨
      (∃ diff e, env.getDiff X.sha = .ok diff ∧ env.applyDiff diff = .err e) ∨
      (∃ diff, env.getDiff X.sha = .ok diff ∧ env.applyDiff diff = .ok ∧
        env.commitOk (syncedMsg st.metadata X) = false) ∨
      (∃ diff, env.getDiff X.sha = .ok diff ∧ env.applyDiff diff = .ok ∧
        env.commitOk (syncedMsg st.metadata X) = true ∧
        env.saveMetadataOk = false)) :
    (∃ m, (applyLoop env aset st (X :: rest)).2 = .err m) ∧
    (applyLoop env aset st (X :: rest)).1.dir.metadata = st.dir.metadata ∧
    (applyLoop env aset st (X :: rest)).1.dir.syncStatus = st.dir.syncStatus ∧
    applyLoop env aset st (X :: rest) = applyLoop env aset st [X] := by
  have hm1 : X.sha ∉ aset := by simpa using h1
  have h2' : 8 ≤ X.sha.length := h2
  rcases herr with ⟨e, hd⟩ | ⟨diff, e, hd, ha⟩ | ⟨diff, hd, ha, hcm⟩ |
    ⟨diff, hd, ha, hcm, hmm⟩
  · exact ⟨⟨"failed to get diff for commit " ++ X.sha ++ ": " ++ e,
      by simp [applyLoop, goSlice, hm1, h2, h2', hd]⟩,
      by simp [applyLoop, goSlice, hm1, h2, h2', hd],
      by simp [applyLoop, goSlice, hm1, h2, h2', hd],
      by simp [applyLoop, goSlice, hm1, h2, h2', hd]⟩
  · exact ⟨⟨"failed to apply diff: " ++ e,
      by simp [applyLoop, goSlice, hm1, h2, h2', hd, ha]⟩,
      by simp [applyLoop, goSlice, hm1, h2, h2', hd, ha],
      by simp [applyLoop, goSlice, hm1, h2, h2', hd, ha],
      by simp [applyLoop, goSlice, hm1, h2, h2', hd, ha]⟩
  · exact ⟨⟨"failed to commit changes",
      by simp [applyLoop, goSlice, hm1, h2, h2', hd, ha, hcm]⟩,
      by simp [applyLoop, goSlice, hm1, h2, h2', hd, ha, hcm],
      by simp [applyLoop, goSlice, hm1, h2, h2', hd, ha, hcm],
      by simp [applyLoop, goSlice, hm1, h2, h2', hd, ha, hcm]⟩
  · exact ⟨⟨"failed to update metadata",
      by simp [applyLoop, goSlice, hm1, h2, h2', hd, ha, hcm, hmm]⟩,
      by simp [applyLoop, goSlice, hm1, h2, h2', hd, ha, hcm, hmm],
      by simp [applyLoop, goSlice, hm1, h2, h2', hd, ha, hcm, hmm],
      by simp [applyLoop, goSlice, hm1, h2, h2', hd, ha, hcm, hmm]⟩

/-- Witness for C6: a concrete failing diff fetch — the run errors and the
persisted metadata and sync-status files are untouched. -/
theorem spec_C6_witness :
    (∃ m, (applyLoop envF [] stF [XF]).2 = .err m) ∧
    (applyLoop envF [] stF [XF]).1.dir.metadata = stF.dir.metadata ∧
    (applyLoop envF [] stF [XF]).1.dir.syncStatus = stF.dir.syncStatus :=
  ⟨(spec_C6 envF [] stF XF [] (by decide) (by decide)
      (Or.inl ⟨"boom", rfl⟩)).1,
    (spec_C6 envF [] stF XF [] (by decide) (by decide)
      (Or.inl ⟨"boom", rfl⟩)).2.1,
    (spec_C6 envF [] stF XF [] (by decide) (by decide)
      (Or.inl ⟨"boom", rfl⟩)).2.2.1⟩

/-- C4: conflict resolution.  For a project in the CONFLICTED state, when
the operator confirms the conflicts resolved, the run commits the working
tree under the synthetic message (source repo + resolved commit), appends
the conflicted commit's identifier to applied_commits, refreshes
last_synced_at, persists the metadata, clears the SyncStatus record, and
returns success — attempting none of the remaining selections. -/
theorem spec_C4 (env : SyncEnv) (dir : ProjectDir) (md : ProjectMetadata)
    (ss : SyncStatus) (X : CommitInfo)
    (h1 : dir.metadata = .parsed md)
    (h2 : 8 ≤ md.sourceCommit.data.length)
    (h3 : LoadSyncStatus dir = .ok ss)
    (h4 : ss.inProgress = true) (h5 : ss.hasConflicts = true)
    (h6 : ss.conflictCommit = some X)
    (h7 : 8 ≤ X.sha.data.length)
    (h8 : env.confirmResolved = true)
    (h9 : env.commitOk (resolvedMsg md X) = true)
    (h10 : env.saveMetadataOk = true)
    (h11 : env.clearStatusOk = true) :
    SyncProject env dir =
      ({ dir with
          gitLog := dir.gitLog ++ [resolvedMsg md X]
          metadata := .parsed { md with
            appliedCommits := md.appliedCommits ++ [X.sha]
            lastSyncedAt := env.now }
          syncStatus := .absent },
        .ok, { enteredConflictRes := true }) ∧
    (SyncProject env dir).2.2.attempted = [] := by
  have h7' : 8 ≤ X.sha.length := h7
  rw [SyncProject_conflict_front env dir md ss h1 h2 h3 h4 h5]
  constructor
  · simp [handleConflictResolution, h6, goSlice, h7, h7', h8, h9, h10, h11,
      SaveProjectMetadata, ClearSyncStatus]
  · rfl

/-- Witness for C4: a concrete resolved conflict — commit XD is appended,
the metadata persisted, the record cleared, and the run succeeds. -/
theorem spec_C4_witness :
    SyncProject envD dirD =
      ({ dirD with
          gitLog := dirD.gitLog ++ [resolvedMsg mdD XD]
          metadata := .parsed { mdD with
            appliedCommits := mdD.appliedCommits ++ [XD.sha]
            lastSyncedAt := envD.now }
          syncStatus := .absent },
        .ok, { enteredConflictRes := true }) :=
  (spec_C4 envD dirD mdD ssD XD rfl (by decide) rfl rfl rfl rfl (by decide)
    rfl rfl rfl rfl).1

/-- C5: skip semantics.  For a project in the CONFLICTED state, declining
resolution and confirming the skip clears the SyncStatus record while the
whole ProjectMetadata (applied_commits included), patch file and git log
stay unchanged, so the skipped commit reappears as a reconciliation
candidate on the next run; declining the skip as well fails the operation
and leaves the persisted state untouched. -/
theorem spec_C5 (env : SyncEnv) (dir : ProjectDir) (md : ProjectMetadata)
    (ss : SyncStatus) (X : CommitInfo)
    (h1 : dir.metadata = .parsed md)
    (h2 : 8 ≤ md.sourceCommit.data.length)
    (h3 : LoadSyncStatus dir = .ok ss)
    (h4 : ss.inProgress = true) (h5 : ss.hasConflicts = true)
    (h6 : ss.conflictCommit = some X)
    (h7 : 8 ≤ X.sha.data.length)
    (h8 : env.confirmResolved = false)
    (h9 : env.clearStatusOk = true) :
    (env.confirmSkip = true →
      SyncProject env dir =
        ({ dir with syncStatus := .absent }, .ok,
          { enteredConflictRes := true })) ∧
    (env.confirmSkip = false →
      SyncProject env dir =
        (dir, .err "sync aborted, please resolve conflicts and try again",
          { enteredConflictRes := true })) ∧
    (X.sha ∉ md.appliedCommits →
      ∀ (sorted : List CommitInfo) (i : Nat),
        findSourceIdx sorted md.sourceCommit = some i →
        X ∈ sorted.drop (i + 1) →
        X ∈ (reconcile sorted md.sourceCommit md.appliedCommits).1) := by
  have h7' : 8 ≤ X.sha.length := h7
  refine ⟨fun hskip => ?_, fun hskip => ?_, fun hnot sorted i hf hm =>
    mem_reconcile_of_after_anchor sorted md.sourceCommit md.appliedCommits
      X i hf hm hnot⟩
  · rw [SyncProject_conflict_front env dir md ss h1 h2 h3 h4 h5]
    simp [handleConflictResolution, h6, goSlice, h7, h7', h8, h9, hskip,
      ClearSyncStatus]
  · rw [SyncProject_conflict_front env dir md ss h1 h2 h3 h4 h5]
    simp [handleConflictResolution, h6, goSlice, h7, h7', h8, h9, hskip]

/-- Witness for C5: a concrete declined-then-skipped conflict — only the
sync record is removed; metadata, patch file and git log are unchanged. -/
theorem spec_C5_witness :
    SyncProject envE dirD =
      ({ dirD with syncStatus := .absent }, .ok,
        { enteredConflictRes := true }) :=
  (spec_C5 envE dirD mdD ssD XD rfl (by decide) rfl rfl rfl rfl (by decide)
    rfl rfl).1 rfl

set_option maxRecDepth 10000

/-- Counterexample to C7 as stated: with a multi-select collaborator that
returns the checked options in reverse presentation order, the driver
attempts commit cG3 (t=3) before cG2 (t=2) — the claim's unconditional
ordering invariant fails. -/
theorem spec_C7_counterexample :
    (SyncProject envG dirG).2.2.attempted = [cG3, cG2] ∧
    ¬ dateLE cG3 cG2 := by
  constructor
  · decide
  · decide

/-- C7 (amended): the driver applies the selected commits in the order the
multi-select collaborator returns them; provided the collaborator returns
its selection as a sublist of the presented options (presentation order)
and the option labels are pairwise distinct, every pair of commits
attempted in order satisfies A.timestamp ≤ B.timestamp. -/
theorem spec_C7 (env : SyncEnv) (dir : ProjectDir) (md : ProjectMetadata)
    (ss : SyncStatus) (hist : List CommitInfo) (opts : List String)
    (h1 : dir.metadata = .parsed md)
    (h2 : 8 ≤ md.sourceCommit.data.length)
    (h3 : LoadSyncStatus dir = .ok ss)
    (h4 : (ss.inProgress && ss.hasConflicts) = false)
    (h5 : env.fetchedCommits = .ok hist)
    (h6 : optionsOf
      (reconcile (sortCommits hist) md.sourceCommit md.appliedCommits).1 =
        some opts)
    (h7 : opts.Nodup)
    (h8 : List.Sublist (env.multiSelect opts) opts) :
    List.Pairwise dateLE (SyncProject env dir).2.2.attempted := by
  rw [SyncProject_front env dir md ss h1 h2 h3 h4]
  by_cases hfmt : (goSplit md.sourceRepo '/').length = 2
  case neg =>
    simp [syncReconcileAndApply, hfmt]
  case pos =>
    cases hne :
        (reconcile (sortCommits hist) md.sourceCommit md.appliedCommits).1.isEmpty with
    | true => simp [syncReconcileAndApply, hfmt, h5, hne]
    | false =>
      have hcc : chooseCommits env
          (reconcile (sortCommits hist) md.sourceCommit md.appliedCommits).1 =
          some (mapBack opts
            (reconcile (sortCommits hist) md.sourceCommit md.appliedCommits).1
            (env.multiSelect opts)) := by
        unfold chooseCommits
        rw [h6]
      cases hse : (mapBack opts
          (reconcile (sortCommits hist) md.sourceCommit md.appliedCommits).1
          (env.multiSelect opts)).isEmpty with
      | true => simp [syncReconcileAndApply, hfmt, h5, hne, hcc, hse]
      | false =>
        have hred :
            (syncReconcileAndApply env dir md
              (String.mk (md.sourceCommit.data.take 8))).2.2.attempted =
            (applyLoop env md.appliedCommits
              { dir := dir, metadata := md, attempted := [] }
              (mapBack opts
                (reconcile (sortCommits hist) md.sourceCommit
                  md.appliedCommits).1
                (env.multiSelect opts))).1.attempted := by
          simp [syncReconcileAndApply, hfmt, h5, hne, hcc, hse]
        rw [hred]
        obtain ⟨t, ht, hs⟩ := applyLoop_attempted env md.appliedCommits
          (mapBack opts
            (reconcile (sortCommits hist) md.sourceCommit md.appliedCommits).1
            (env.multiSelect opts))
          { dir := dir, metadata := md, attempted := [] }
        rw [ht]
        simp only [List.nil_append]
        exact (reconcile_sorted hist md.sourceCommit md.appliedCommits).sublist
          (hs.trans (mapBack_sublist opts
            (reconcile (sortCommits hist) md.sourceCommit md.appliedCommits).1
            (env.multiSelect opts) h7 h8))

/-- Witness for C7 (amended): a concrete run whose collaborator returns
the selection in presentation order — the attempted commits are pairwise
ascending by timestamp. -/
theorem spec_C7_witness :
    List.Pairwise dateLE (SyncProject envH dirH).2.2.attempted :=
  spec_C7 envH dirH mdH {} [cH1, cH2, cH3] optsH rfl (by decide) rfl rfl rfl
    (by decide) (by decide) (List.Sublist.refl optsH)

/-- Counterexample to C9's provenance clause: at the exact input the claim
describes — the tag fallback with a short tag name ("v1.0") stored as the
commit identifier — project creation panics at its own `commitSHA[:8]`
slice (main.go line 178) before anything is persisted, so the fallback
cannot persist a metadata whose source_commit is shorter than 8
characters. -/
theorem spec_C9_counterexample :
    createNewProjectTagPath "own/tpl" "v1.0"
      (.error "failed to get tag reference") true true 0 = .panic := by
  decide

/-- C9 (amended): SyncProject unconditionally slices source_commit[:8], so
any loaded metadata whose source_commit is shorter than 8 characters makes
the whole operation panic rather than return an error; however, the
project-creation tag fallback cannot persist such a metadata — it slices
commitSHA[:8] itself before persisting, so every metadata it persists has
a source_commit of length at least 8. -/
theorem spec_C9 :
    (∀ (env : SyncEnv) (dir : ProjectDir) (md : ProjectMetadata),
      dir.metadata = .parsed md → md.sourceCommit.data.length < 8 →
      SyncProject env dir = (dir, .panic, {})) ∧
    (∀ (repoFull ref : String) (resolve : Except String String)
      (dl cr : Bool) (now : Nat) (m : ProjectMetadata),
      createNewProjectTagPath repoFull ref resolve dl cr now = .ok m →
      8 ≤ m.sourceCommit.data.length) := by
  constructor
  · intro env dir md h1 h2
    have h2' : ¬(8 ≤ md.sourceCommit.data.length) := Nat.not_le.mpr h2
    have h2'' : ¬(8 ≤ md.sourceCommit.length) := h2'
    simp [SyncProject, LoadProjectMetadata, h1, goSlice, h2', h2'']
  · intro repoFull ref resolve dl cr now m hm
    cases resolve with
    | ok sha =>
      cases hg : goSlice sha 8 with
      | none => simp [createNewProjectTagPath, hg] at hm
      | some s8 =>
        have hlen : 8 ≤ sha.data.length := by
          by_contra hl
          have hl' : ¬(8 ≤ sha.length) := hl
          simp [goSlice, hl'] at hg
        cases dl with
        | false => simp [createNewProjectTagPath, hg] at hm
        | true =>
          cases cr with
          | false => simp [createNewProjectTagPath, hg] at hm
          | true =>
            simp [createNewProjectTagPath, hg] at hm
            rw [← hm]
            simpa [CreateInitialMetadata] using hlen
    | error e =>
      cases hg : goSlice ref 8 with
      | none => simp [createNewProjectTagPath, hg] at hm
      | some s8 =>
        have hlen : 8 ≤ ref.data.length := by
          by_contra hl
          have hl' : ¬(8 ≤ ref.length) := hl
          simp [goSlice, hl'] at hg
        cases dl with
        | false => simp [createNewProjectTagPath, hg] at hm
        | true =>
          cases cr with
          | false => simp [createNewProjectTagPath, hg] at hm
          | true =>
            simp [createNewProjectTagPath, hg] at hm
            rw [← hm]
            simpa [CreateInitialMetadata] using hlen

/-- Witness for C9 (amended): a metadata with a 4-character source_commit
makes SyncProject panic, and a successfully persisted tag-fallback
metadata has a source_commit of length at least 8. -/
theorem spec_C9_witness :
    SyncProject envI dirI = (dirI, .panic, {}) ∧
    8 ≤ (CreateInitialMetadata "own/tpl" "v1.23.456" "v1.23.456"
      0).sourceCommit.data.length :=
  ⟨spec_C9.1 envI dirI mdI rfl (by decide),
    spec_C9.2 "own/tpl" "v1.23.456" (.error "x") true true 0
      (CreateInitialMetadata "own/tpl" "v1.23.456" "v1.23.456" 0)
      (by decide)⟩

theorem syncRA_entered (env : SyncEnv) (dir : ProjectDir)
    (md : ProjectMetadata) (s8 : String) :
    (syncReconcileAndApply env dir md s8).2.2.enteredConflictRes = false := by
  by_cases hfmt : (goSplit md.sourceRepo '/').length = 2
  case neg => simp [syncReconcileAndApply, hfmt]
  case pos =>
    cases hf : env.fetchedCommits with
    | error e => simp [syncReconcileAndApply, hfmt, hf]
    | ok commits =>
      cases hne :
          (reconcile (sortCommits commits) md.sourceCommit md.appliedCommits).1.isEmpty with
      | true => simp [syncReconcileAndApply, hfmt, hf, hne]
      | false =>
        cases hcc : chooseCommits env
            (reconcile (sortCommits commits) md.sourceCommit md.appliedCommits).1 with
        | none => simp [syncReconcileAndApply, hfmt, hf, hne, hcc]
        | some sel =>
          cases hse : sel.isEmpty with
          | true => simp [syncReconcileAndApply, hfmt, hf, hne, hcc, hse]
          | false => simp [syncReconcileAndApply, hfmt, hf, hne, hcc, hse]

/-- C10: guard conjunction for the CONFLICTED state.  SyncProject enters
conflict resolution exactly when the loaded SyncStatus has both
in_progress and has_conflicts set; a persisted record lacking either flag
behaves exactly like an absent record — the run's outcome, trace, metadata
file, patch file and git log coincide with those of the absent-record run,
and the record is either overwritten identically in both runs (a new
conflict) or left in place uncleared. -/
theorem spec_C10 (env : SyncEnv) (dir : ProjectDir) (md : ProjectMetadata)
    (ss : SyncStatus)
    (h1 : dir.metadata = .parsed md)
    (h2 : 8 ≤ md.sourceCommit.data.length)
    (h3 : dir.syncStatus = .parsed ss) :
    (SyncProject env dir).2.2.enteredConflictRes =
      (ss.inProgress && ss.hasConflicts) ∧
    ((ss.inProgress && ss.hasConflicts) = false →
      ∃ (m' : FileData ProjectMetadata) (pf' : Option String)
        (gl' : List String) (o : SyncOutcome) (tr : SyncTrace)
        (sOpt : Option (FileData SyncStatus)),
        SyncProject env dir =
          (⟨m', sOpt.getD (.parsed ss), pf', gl'⟩, o, tr) ∧
        SyncProject env { dir with syncStatus := .absent } =
          (⟨m', sOpt.getD .absent, pf', gl'⟩, o, tr)) := by
  have h3' : LoadSyncStatus dir = .ok ss := by
    simp [LoadSyncStatus, h3]
  constructor
  · cases hguard : (ss.inProgress && ss.hasConflicts) with
    | true =>
      have h45 := hguard
      rw [Bool.and_eq_true] at h45
      rw [SyncProject_conflict_front env dir md ss h1 h2 h3' h45.1 h45.2]
    | false =>
      rw [SyncProject_front env dir md ss h1 h2 h3' hguard]
      exact syncRA_entered env dir md (String.mk (md.sourceCommit.data.take 8))
  · intro hguard
    obtain ⟨m, s, pf, gl⟩ := dir
    simp only at h1 h3
    subst h1
    subst h3
    have hfront1 := SyncProject_front env ⟨.parsed md, .parsed ss, pf, gl⟩
      md ss rfl h2 rfl hguard
    have hfront2 := SyncProject_front env ⟨.parsed md, .absent, pf, gl⟩
      md {} rfl h2 rfl rfl
    obtain ⟨m', pf', gl', o, tr, sOpt, e1, e2⟩ := syncRA_status_indep env md
      (String.mk (md.sourceCommit.data.take 8)) (.parsed md) pf gl
      (.parsed ss) .absent
    exact ⟨m', pf', gl', o, tr, sOpt, hfront1.trans e1, hfront2.trans e2⟩

/-- Witness for C10: a persisted record with in_progress set but
has_conflicts unset does not divert the run into conflict resolution. -/
theorem spec_C10_witness :
    (SyncProject envJ dirJ).2.2.enteredConflictRes = false :=
  (spec_C10 envJ dirJ mdJ ssJ rfl (by decide) rfl).1.trans (by decide)
